import Mathlib

/-!
Verification of the SpotLive spot aggregation and ranking core.

The definitions below are a shallow embedding of the relevant TypeScript:
  * `src/types.ts` — the `Story` and `Spot` records;
  * `src/App.tsx` (the `displayedSpots` useMemo, lines 256-317) — grouping of
    stories into spots by a rounded-coordinate/location-name key, centroid and
    vibe-score computation;
  * `src/App.tsx:33-42` — `getNeighborhoodName`;
  * `src/App.tsx:515-520` — `filteredStories` (the feed view projection);
  * `src/components/MapView.tsx:219-223` — `getSpotActivityLevel`;
  * `src/services/supabaseService.ts` (`storiesService.getActiveStories`) —
    the active-story query (`expires_at > now`, `is_hidden = false`, optional
    country filter, ordered by `created_at` descending).

JavaScript numbers are embedded as exact rationals (`ℚ`); epoch-millisecond
instants and like counters as integers (`ℤ`).  Presentation-only string fields
that no claim touches (avatar and media URLs, captions) are omitted from the
records.
-/

namespace SpotLive

section

attribute [local semireducible] Rat.add Rat.mul Rat.inv Rat.sub

/-- The `Story` record of `src/types.ts` (fields relevant to the core;
`timestamp` is `createdAt` in the domain language). -/
structure Story where
  id : String
  userId : String
  timestamp : ℤ
  vibeTags : List String
  expiresAt : ℤ
  latitude : ℚ
  longitude : ℚ
  locationName : String
  likes : ℤ
deriving DecidableEq

/-- A reference point of the static neighborhood table.  The table itself
(`KNOWN_NEIGHBORHOODS`) lives in `constants.ts`, which is not part of the
sources; it is therefore a parameter throughout. -/
structure Neighborhood where
  name : String
  lat : ℚ
  lon : ℚ
deriving DecidableEq

/-- The `Spot` record of `src/types.ts`. -/
structure Spot where
  id : String
  name : String
  neighborhood : String
  latitude : ℚ
  longitude : ℚ
  description : String
  activeStories : List Story
  vibeScore : ℤ

/-- JavaScript `Math.round` on an exact rational: round half toward
positive infinity. -/
def jsRound (q : ℚ) : ℤ := Rat.floor (q + mkRat 1 2)

/-- `Math.round(story.latitude * 1000) / 1000` (src/App.tsx:269). -/
def latKey (s : Story) : ℚ := (jsRound (s.latitude * 1000) : ℚ) / 1000

/-- `Math.round(story.longitude * 1000) / 1000` (src/App.tsx:270). -/
def lonKey (s : Story) : ℚ := (jsRound (s.longitude * 1000) : ℚ) / 1000

/-- The grouping key `` `${story.locationName}|${latKey}|${lonKey}` ``
(src/App.tsx:271), embedded as the triple of its components rather than the
interpolated string.  (The string form could conflate distinct triples only
through a location name containing the separator; no claim depends on that.) -/
structure GroupKey where
  locationName : String
  latKey : ℚ
  lonKey : ℚ
deriving DecidableEq

/-- The grouping key of a story. -/
def storyKey (s : Story) : GroupKey :=
  { locationName := s.locationName, latKey := latKey s, lonKey := lonKey s }

/-- One entry of the `byKey` map (src/App.tsx:257-266).  The incrementally
maintained `latSum`/`lonSum` fields of the source always equal the sums of the
member coordinates, so they are recomputed from `stories` when the spot is
built instead of being carried here. -/
structure Group where
  key : GroupKey
  stories : List Story

/-- One step of the grouping loop (src/App.tsx:268-286): a story is appended
to the stories of the group holding its key if that key is already present
(JavaScript `Map` lookup), otherwise a fresh group is inserted at the end
(JavaScript `Map` iteration follows insertion order). -/
def addStory : List Group → Story → List Group
  | [], s => [{ key := storyKey s, stories := [s] }]
  | g :: gs, s =>
    if g.key = storyKey s then { key := g.key, stories := g.stories ++ [s] } :: gs
    else g :: addStory gs s

/-- The grouping pass over the active stories, in input order. -/
def buildGroups (posts : List Story) : List Group := posts.foldl addStory []

/-- `getNeighborhoodName` (src/App.tsx:33-42): the first reference point whose
Euclidean distance to the given coordinates is below `0.025` degrees, else the
default city name.  The comparison `Math.sqrt(d2) < 0.025` of the source is
embedded as `d2 < 0.025 ^ 2`, which is equivalent for a nonnegative radicand. -/
def getNeighborhoodName (neighborhoods : List Neighborhood) (lat lon : ℚ)
    (defaultCity : String) : String :=
  match neighborhoods.find? (fun n =>
      (n.lat - lat) * (n.lat - lat) + (n.lon - lon) * (n.lon - lon)
        < mkRat 25 1000 * mkRat 25 1000) with
  | some n => n.name
  | none => defaultCity

/-- `group.stories.reduce((sum, s) => sum + (s.likes || 0), 0)`
(src/App.tsx:296).  Over total integers `s.likes || 0` collapses to
`s.likes` (the guard only replaces a missing or zero count by zero). -/
def totalLikes (stories : List Story) : ℤ :=
  stories.foldl (fun sum s => sum + s.likes) 0

/-- `const vibeScore = group.stories.length * 20 + totalLikes * 2`
(src/App.tsx:297).  No clamp is applied. -/
def vibeScoreOf (stories : List Story) : ℤ :=
  (stories.length : ℤ) * 20 + totalLikes stories * 2

/-- Spot construction from one group (src/App.tsx:292-308).  The `id` field
renders the key; its numeral formatting differs from the JavaScript string
interpolation, which no claim observes. -/
def mkSpot (neighborhoods : List Neighborhood) (cityName : String) (g : Group) : Spot :=
  let latitude := (g.stories.map Story.latitude).sum / (g.stories.length : ℚ)
  let longitude := (g.stories.map Story.longitude).sum / (g.stories.length : ℚ)
  { id := "spot_" ++ g.key.locationName ++ "|" ++ toString g.key.latKey
      ++ "|" ++ toString g.key.lonKey
    name := g.key.locationName
    neighborhood := getNeighborhoodName neighborhoods latitude longitude cityName
    latitude := latitude
    longitude := longitude
    description := ""
    activeStories := g.stories
    vibeScore := vibeScoreOf g.stories }

/-- The `displayedSpots` computation (src/App.tsx:256-317): group the active
stories, then build one spot per group, in group order. -/
def displayedSpots (neighborhoods : List Neighborhood) (cityName : String)
    (posts : List Story) : List Spot :=
  (buildGroups posts).map (mkSpot neighborhoods cityName)

/-- `getSpotActivityLevel` (src/components/MapView.tsx:219-223). -/
def getSpotActivityLevel (score : ℤ) : String :=
  if score ≥ 40 then "HOT"
  else if score > 10 then "ACTIVE"
  else "CALM"

/-- JavaScript `String.prototype.toLowerCase`, embedded per character. -/
def jsToLower (s : String) : String := String.mk (s.data.map Char.toLower)

/-- JavaScript `String.prototype.includes`: the needle occurs as a contiguous
substring of the haystack. -/
def jsIncludes (hay needle : String) : Bool :=
  hay.data.tails.any (fun t => needle.data.isPrefixOf t)

/-- The feed view projection `filteredStories` (src/App.tsx:515-520): the
selected filter `"All"` returns the active stories unchanged; any other
selected filter keeps exactly the stories one of whose tags contains the
filter string case-insensitively.  The user location is not consulted. -/
def filteredStories (activeStories : List Story) (selectedFilter : String) :
    List Story :=
  if selectedFilter = "All" then activeStories
  else activeStories.filter (fun story =>
    story.vibeTags.any (fun tag => jsIncludes (jsToLower tag) (jsToLower selectedFilter)))

/-- A stored story row as the `stories` table query sees it
(`src/services/supabaseService.ts`): `expires_at` and `created_at` as
instants, the moderation flag `is_hidden`, and the country code. -/
structure StoryRow where
  id : String
  createdAt : ℤ
  expiresAt : ℤ
  isHidden : Bool
  countryCode : String
deriving DecidableEq

/-- The WHERE clause of `storiesService.getActiveStories`:
`.gt(expires_at, now)`, `.eq(is_hidden, false)`, and
`.eq(country_code, c)` only when a country code is supplied that is truthy
and different from the sentinel `"ALL"`. -/
def rowActive (now : ℤ) (countryCode : Option String) (r : StoryRow) : Bool :=
  (now < r.expiresAt) && (r.isHidden == false) &&
    (match countryCode with
     | some c => if c ≠ "" ∧ c ≠ "ALL" then r.countryCode == c else true
     | none => true)

/-- Descending insertion by `createdAt`, modelling the
`.order(created_at, descending)` clause of the query. -/
def insertByCreatedAtDesc (r : StoryRow) : List StoryRow → List StoryRow
  | [] => [r]
  | x :: xs =>
    if x.createdAt < r.createdAt then r :: x :: xs
    else x :: insertByCreatedAtDesc r xs

/-- `storiesService.getActiveStories` (src/services/supabaseService.ts:88-114):
the stored rows satisfying the WHERE clause, ordered by `created_at`
descending. -/
def getActiveStories (rows : List StoryRow) (now : ℤ)
    (countryCode : Option String) : List StoryRow :=
  (rows.filter (rowActive now countryCode)).foldr insertByCreatedAtDesc []

/-- The distance threshold named by the specification (0.0015 degrees). -/
def specThreshold : ℚ := mkRat 15 10000

/-- Modelled from the spec: the anchor-threshold clustering the specification
describes in section 4.2 (compare each post, in input order, against the first
member of each existing cluster using Euclidean distance on raw degrees;
append on the first cluster within `specThreshold`, else open a new cluster).
No such pass exists in the sources; this definition exists solely to be
compared with the grouping the code performs.  The comparison
`distance < threshold` is embedded as `distance ^ 2 < threshold ^ 2`. -/
def specCloseToAnchor (p : Story) : List Story → Bool
  | [] => false
  | a :: _ =>
    decide ((a.latitude - p.latitude) * (a.latitude - p.latitude)
      + (a.longitude - p.longitude) * (a.longitude - p.longitude)
      < specThreshold * specThreshold)

/-- Modelled from the spec: one insertion step of the anchor-threshold
clustering (first matching cluster wins). -/
def specAddPost : List (List Story) → Story → List (List Story)
  | [], p => [[p]]
  | c :: cs, p =>
    if specCloseToAnchor p c then (c ++ [p]) :: cs else c :: specAddPost cs p

/-- Modelled from the spec: the full anchor-threshold clustering pass. -/
def specThresholdClusters (posts : List Story) : List (List Story) :=
  posts.foldl specAddPost []

/-- The member ordering claimed by the specification for spot members:
like count descending, ties broken by creation time descending. -/
def claimedMemberOrder (l : List Story) : Prop :=
  l.Pairwise (fun a b => b.likes < a.likes ∨ (b.likes = a.likes ∧ b.timestamp ≤ a.timestamp))

/-- One step of first-occurrence deduplication: keep the accumulator if the
element is already present, else append it. -/
def insStep {α : Type _} [DecidableEq α] (acc : List α) (a : α) : List α :=
  if a ∈ acc then acc else acc ++ [a]

/-- First-occurrence deduplication: the distinct elements of a list in order
of first appearance (the key order of a JavaScript `Map` filled by a fold). -/
def firstDedup {α : Type _} [DecidableEq α] (l : List α) : List α :=
  l.foldl insStep []

/-- Denotational description of the `byKey` map contents after processing
`posts`: one group per key of `ks`, holding the posts carrying that key, in
input order. -/
def groupsOf (posts : List Story) (ks : List GroupKey) : List Group :=
  ks.map (fun k => { key := k, stories := posts.filter (fun p => storyKey p == k) })

/-- Concrete story builder for counterexamples and witnesses (the display-only
fields are fixed; coordinates are exact rationals). -/
def mkStory (i : String) (lat lon : ℚ) (name : String) (likes : ℤ) : Story :=
  { id := i, userId := "u", timestamp := 0, vibeTags := ["food"],
    expiresAt := 86400000, latitude := lat, longitude := lon,
    locationName := name, likes := likes }

/-- A story at latitude 0.0004, longitude 0. -/
def cA : Story := mkStory "a" (mkRat 4 10000) 0 "x" 0

/-- A story at latitude 0.0006, longitude 0 — 0.0002 degrees from `cA`. -/
def cB : Story := mkStory "b" (mkRat 6 10000) 0 "x" 0

/-- A story at the origin with location name "a". -/
def cE : Story := mkStory "e" 0 0 "a" 0

/-- A story at the origin with location name "b" — same coordinates as `cE`. -/
def cF : Story := mkStory "f" 0 0 "b" 0

/-- A story with zero likes, first in input order at its location. -/
def sLow : Story := mkStory "low" 0 0 "x" 0

/-- A story with five likes, second in input order at the same location. -/
def sHigh : Story := mkStory "high" 0 0 "x" 5

/-- A story whose only tag is "food". -/
def tagStory : Story := mkStory "t" 0 0 "x" 0

/-- A plain story with zero likes, used by witnesses. -/
def wStory : Story := mkStory "w" 0 0 "w" 0

/-- Six colocated stories with zero likes (one group of six members). -/
def sixStories : List Story :=
  [mkStory "s1" 0 0 "x" 0, mkStory "s2" 0 0 "x" 0, mkStory "s3" 0 0 "x" 0,
   mkStory "s4" 0 0 "x" 0, mkStory "s5" 0 0 "x" 0, mkStory "s6" 0 0 "x" 0]

/-- A concrete stored row, not hidden, expiring at instant 5. -/
def wRow : StoryRow :=
  { id := "r", createdAt := 0, expiresAt := 5, isHidden := false, countryCode := "GN" }

/-! ### Arithmetic helpers for the scoring function -/

theorem totalLikes_shift (l : List Story) (c : ℤ) :
    List.foldl (fun sum s => sum + s.likes) c l = c + totalLikes l := by
  induction l generalizing c with
  | nil => simp [totalLikes]
  | cons s l ih =>
    show List.foldl _ (c + s.likes) l = c + List.foldl _ (0 + s.likes) l
    rw [ih, ih]
    omega

theorem totalLikes_cons (s : Story) (l : List Story) :
    totalLikes (s :: l) = s.likes + totalLikes l := by
  show List.foldl _ (0 + s.likes) l = _
  rw [totalLikes_shift]
  omega

theorem totalLikes_append (l₁ l₂ : List Story) :
    totalLikes (l₁ ++ l₂) = totalLikes l₁ + totalLikes l₂ := by
  induction l₁ with
  | nil => simp [totalLikes]
  | cons s l ih => rw [List.cons_append, totalLikes_cons, totalLikes_cons, ih]; omega

theorem totalLikes_nonneg (l : List Story) (h : ∀ p ∈ l, 0 ≤ p.likes) :
    0 ≤ totalLikes l := by
  induction l with
  | nil => simp [totalLikes]
  | cons s l ih =>
    rw [totalLikes_cons]
    have h1 := h s (List.mem_cons_self ..)
    have h2 := ih (fun p hp => h p (List.mem_cons_of_mem _ hp))
    omega

/-! ### The grouping pass, characterized denotationally -/

theorem groupsOf_cons (posts : List Story) (k : GroupKey) (ks : List GroupKey) :
    groupsOf posts (k :: ks)
      = { key := k, stories := posts.filter (fun p => storyKey p == k) } :: groupsOf posts ks :=
  rfl

theorem addStory_of_newKey (s : Story) : ∀ gs : List Group,
    (∀ g ∈ gs, g.key ≠ storyKey s) →
    addStory gs s = gs ++ [{ key := storyKey s, stories := [s] }]
  | [], _ => rfl
  | g :: gs, h => by
    rw [addStory, if_neg (h g (List.mem_cons_self ..)),
      addStory_of_newKey s gs (fun g1 hg1 => h g1 (List.mem_cons_of_mem _ hg1)),
      List.cons_append]

theorem groupsOf_snoc_notmem (posts : List Story) (s : Story) (ks : List GroupKey)
    (h : storyKey s ∉ ks) : groupsOf (posts ++ [s]) ks = groupsOf posts ks := by
  refine List.map_congr_left (fun k hk => ?_)
  have hne : (storyKey s == k) = false := by
    refine beq_eq_false_iff_ne.2 (fun hEq => ?_)
    exact h (hEq ▸ hk)
  simp [List.filter_append, List.filter, hne]

theorem addStory_groupsOf_mem (posts : List Story) (s : Story) : ∀ ks : List GroupKey,
    ks.Nodup → storyKey s ∈ ks →
    addStory (groupsOf posts ks) s = groupsOf (posts ++ [s]) ks
  | [], _, hmem => absurd hmem (List.not_mem_nil _)
  | k :: ks, hnd, hmem => by
    rw [groupsOf_cons, addStory]
    dsimp only
    by_cases hk : k = storyKey s
    · rw [if_pos hk]
      have hnotmem : storyKey s ∉ ks := hk ▸ (List.nodup_cons.1 hnd).1
      rw [groupsOf_cons, groupsOf_snoc_notmem posts s ks hnotmem]
      have hfil : List.filter (fun p => storyKey p == k) (posts ++ [s])
          = List.filter (fun p => storyKey p == k) posts ++ [s] := by
        rw [List.filter_append]
        simp [List.filter, hk.symm]
      rw [hfil]
    · rw [if_neg hk]
      have hmem2 : storyKey s ∈ ks := by
        rcases List.mem_cons.1 hmem with h1 | h1
        · exact absurd h1.symm hk
        · exact h1
      rw [addStory_groupsOf_mem posts s ks (List.nodup_cons.1 hnd).2 hmem2, groupsOf_cons]
      have hne : (storyKey s == k) = false :=
        beq_eq_false_iff_ne.2 (fun hEq => hk hEq.symm)
      have hfil : List.filter (fun p => storyKey p == k) (posts ++ [s])
          = List.filter (fun p => storyKey p == k) posts := by
        rw [List.filter_append]
        simp [List.filter, hne]
      rw [hfil]

theorem key_mem_of_mem_groupsOf {posts : List Story} {ks : List GroupKey} {g : Group}
    (hg : g ∈ groupsOf posts ks) : g.key ∈ ks := by
  rcases List.mem_map.1 hg with ⟨k, hk, hEq⟩
  exact hEq ▸ hk

theorem addStory_groupsOf_notmem (posts : List Story) (s : Story) (ks : List GroupKey)
    (hmem : storyKey s ∉ ks) (hcov : ∀ p ∈ posts, storyKey p ∈ ks) :
    addStory (groupsOf posts ks) s = groupsOf (posts ++ [s]) (ks ++ [storyKey s]) := by
  rw [addStory_of_newKey s (groupsOf posts ks)
    (fun g hg hEq => hmem (hEq ▸ key_mem_of_mem_groupsOf hg))]
  unfold groupsOf
  rw [List.map_append]
  congr 1
  · exact (groupsOf_snoc_notmem posts s ks hmem).symm
  · have h1 : List.filter (fun p => storyKey p == storyKey s) posts = [] := by
      refine List.filter_eq_nil_iff.2 (fun p hp hbeq => ?_)
      exact hmem ((beq_iff_eq.1 hbeq) ▸ hcov p hp)
    simp [List.filter_append, List.filter, h1]

theorem foldl_addStory_eq (posts : List Story) : ∀ (processed : List Story)
    (ks : List GroupKey), ks.Nodup → (∀ p ∈ processed, storyKey p ∈ ks) →
    List.foldl addStory (groupsOf processed ks) posts
      = groupsOf (processed ++ posts) (List.foldl insStep ks (posts.map storyKey)) := by
  induction posts with
  | nil => intro processed ks _ _; simp
  | cons s rest ih =>
    intro processed ks hnd hcov
    rw [List.map_cons, List.foldl_cons, List.foldl_cons]
    by_cases hmem : storyKey s ∈ ks
    · rw [addStory_groupsOf_mem processed s ks hnd hmem]
      have hcov2 : ∀ p ∈ processed ++ [s], storyKey p ∈ ks := by
        intro p hp
        rcases List.mem_append.1 hp with h1 | h1
        · exact hcov p h1
        · rw [List.mem_singleton.1 h1]; exact hmem
      rw [ih (processed ++ [s]) ks hnd hcov2]
      rw [show insStep ks (storyKey s) = ks from if_pos hmem]
      rw [List.append_assoc, List.singleton_append]
    · rw [addStory_groupsOf_notmem processed s ks hmem hcov]
      have hnd2 : (ks ++ [storyKey s]).Nodup := by
        refine List.nodup_append.2 ⟨hnd, List.nodup_singleton _, ?_⟩
        intro a ha hb
        rw [List.mem_singleton.1 hb] at ha
        exact hmem ha
      have hcov2 : ∀ p ∈ processed ++ [s], storyKey p ∈ ks ++ [storyKey s] := by
        intro p hp
        rcases List.mem_append.1 hp with h1 | h1
        · exact List.mem_append.2 (Or.inl (hcov p h1))
        · rw [List.mem_singleton.1 h1]
          exact List.mem_append.2 (Or.inr (List.mem_singleton.2 rfl))
      rw [ih (processed ++ [s]) (ks ++ [storyKey s]) hnd2 hcov2]
      rw [show insStep ks (storyKey s) = ks ++ [storyKey s] from if_neg hmem]
      rw [List.append_assoc, List.singleton_append]

theorem buildGroups_eq (posts : List Story) :
    buildGroups posts = groupsOf posts (firstDedup (posts.map storyKey)) := by
  have h := foldl_addStory_eq posts [] [] List.nodup_nil (by intro p hp; cases hp)
  simpa [groupsOf, firstDedup] using h

/-! ### First-occurrence deduplication -/

theorem foldl_insStep_nodup {α : Type _} [DecidableEq α] (l : List α) :
    ∀ acc : List α, acc.Nodup → (List.foldl insStep acc l).Nodup := by
  induction l with
  | nil => intro acc h; exact h
  | cons a l ih =>
    intro acc h
    rw [List.foldl_cons]
    refine ih _ ?_
    unfold insStep
    by_cases hmem : a ∈ acc
    · rw [if_pos hmem]; exact h
    · rw [if_neg hmem]
      refine List.nodup_append.2 ⟨h, List.nodup_singleton _, ?_⟩
      intro x hx hb
      rw [List.mem_singleton.1 hb] at hx
      exact hmem hx

theorem firstDedup_nodup {α : Type _} [DecidableEq α] (l : List α) :
    (firstDedup l).Nodup :=
  foldl_insStep_nodup l [] List.nodup_nil

theorem mem_foldl_insStep {α : Type _} [DecidableEq α] (l : List α) (x : α) :
    ∀ acc : List α, x ∈ List.foldl insStep acc l ↔ x ∈ acc ∨ x ∈ l := by
  induction l with
  | nil => intro acc; simp
  | cons a l ih =>
    intro acc
    rw [List.foldl_cons, ih]
    unfold insStep
    by_cases hmem : a ∈ acc
    · rw [if_pos hmem]
      constructor
      · rintro (h | h)
        · exact Or.inl h
        · exact Or.inr (List.mem_cons_of_mem _ h)
      · rintro (h | h)
        · exact Or.inl h
        · rcases List.mem_cons.1 h with h1 | h1
          · exact Or.inl (h1 ▸ hmem)
          · exact Or.inr h1
    · rw [if_neg hmem]
      constructor
      · rintro (h | h)
        · rcases List.mem_append.1 h with h1 | h1
          · exact Or.inl h1
          · exact Or.inr (List.mem_cons.2 (Or.inl (List.mem_singleton.1 h1)))
        · exact Or.inr (List.mem_cons_of_mem _ h)
      · rintro (h | h)
        · exact Or.inl (List.mem_append.2 (Or.inl h))
        · rcases List.mem_cons.1 h with h1 | h1
          · exact Or.inl (List.mem_append.2 (Or.inr (List.mem_singleton.2 h1)))
          · exact Or.inr h1

theorem mem_firstDedup {α : Type _} [DecidableEq α] (l : List α) (x : α) :
    x ∈ firstDedup l ↔ x ∈ l := by
  rw [firstDedup, mem_foldl_insStep]
  simp

theorem foldl_insStep_constant {α : Type _} [DecidableEq α] (k : α) : ∀ l : List α,
    (∀ x ∈ l, x = k) → List.foldl insStep [k] l = [k]
  | [], _ => rfl
  | a :: l, h => by
    rw [List.foldl_cons]
    have ha : a = k := h a (List.mem_cons_self ..)
    have hstep : insStep [k] a = [k] := by
      unfold insStep
      rw [if_pos (ha ▸ List.mem_singleton.2 rfl)]
    rw [hstep]
    exact foldl_insStep_constant k l (fun x hx => h x (List.mem_cons_of_mem _ hx))

theorem firstDedup_constant {α : Type _} [DecidableEq α] {l : List α} {k : α}
    (hne : l ≠ []) (h : ∀ x ∈ l, x = k) : firstDedup l = [k] := by
  match l, hne with
  | a :: l, _ =>
    rw [firstDedup, List.foldl_cons]
    have hstep : insStep [] a = [a] := rfl
    rw [hstep, h a (List.mem_cons_self ..)]
    exact foldl_insStep_constant k l (fun x hx => h x (List.mem_cons_of_mem _ hx))

/-! ### The grouped stories are a permutation of the input -/

theorem perm_flatten_filter : ∀ (ks : List GroupKey) (posts : List Story),
    ks.Nodup → (∀ p ∈ posts, storyKey p ∈ ks) →
    ((ks.map (fun k => posts.filter (fun p => storyKey p == k))).flatten).Perm posts
  | [], posts, _, hcov => by
    have hnil : posts = [] :=
      List.eq_nil_iff_forall_not_mem.2 (fun p hp => (List.not_mem_nil _ (hcov p hp)))
    simp [hnil]
  | k :: ks, posts, hnd, hcov => by
    rw [List.map_cons, List.flatten_cons]
    have hrest : ∀ k1 ∈ ks, posts.filter (fun p => storyKey p == k1)
        = (posts.filter (fun p => !(storyKey p == k))).filter (fun p => storyKey p == k1) := by
      intro k1 hk1
      rw [List.filter_filter]
      refine List.filter_congr (fun p _ => ?_)
      cases hb : (storyKey p == k1) with
      | false => simp
      | true =>
        have hne : (storyKey p == k) = false := by
          refine beq_eq_false_iff_ne.2 (fun hEq => ?_)
          have hkk1 : k = k1 := hEq.symm.trans (beq_iff_eq.1 hb)
          exact (List.nodup_cons.1 hnd).1 (by rw [hkk1]; exact hk1)
        rw [hne]
        rfl
    have hmapeq : ks.map (fun k1 => posts.filter (fun p => storyKey p == k1))
        = ks.map (fun k1 => (posts.filter (fun p => !(storyKey p == k))).filter
            (fun p => storyKey p == k1)) :=
      List.map_congr_left hrest
    rw [hmapeq]
    have hcov2 : ∀ p ∈ posts.filter (fun p => !(storyKey p == k)), storyKey p ∈ ks := by
      intro p hp
      rcases List.mem_filter.1 hp with ⟨hpp, hbool⟩
      have := hcov p hpp
      rcases List.mem_cons.1 this with h1 | h1
      · rw [h1] at hbool; simp at hbool
      · exact h1
    have hperm := perm_flatten_filter ks (posts.filter (fun p => !(storyKey p == k)))
      (List.nodup_cons.1 hnd).2 hcov2
    refine List.Perm.trans ?_ (List.filter_append_perm (fun p => storyKey p == k) posts)
    exact List.Perm.append_left _ hperm

/-! ### Spot-level consequences of the grouping characterization -/

theorem mkSpot_activeStories (neighborhoods : List Neighborhood) (cityName : String)
    (g : Group) : (mkSpot neighborhoods cityName g).activeStories = g.stories :=
  rfl

theorem mkSpot_vibeScore (neighborhoods : List Neighborhood) (cityName : String)
    (g : Group) : (mkSpot neighborhoods cityName g).vibeScore = vibeScoreOf g.stories :=
  rfl

theorem displayedSpots_members (neighborhoods : List Neighborhood) (cityName : String)
    (posts : List Story) :
    (displayedSpots neighborhoods cityName posts).map Spot.activeStories
      = (firstDedup (posts.map storyKey)).map
          (fun k => posts.filter (fun p => storyKey p == k)) := by
  rw [displayedSpots, buildGroups_eq, groupsOf, List.map_map, List.map_map]
  rfl

theorem displayedSpots_mem_iff (neighborhoods : List Neighborhood) (cityName : String)
    (posts : List Story) (sp : Spot) :
    sp ∈ displayedSpots neighborhoods cityName posts
      ↔ ∃ k ∈ firstDedup (posts.map storyKey),
          sp = mkSpot neighborhoods cityName
            { key := k, stories := posts.filter (fun p => storyKey p == k) } := by
  rw [displayedSpots, buildGroups_eq, groupsOf, List.map_map]
  constructor
  · intro h
    rcases List.mem_map.1 h with ⟨k, hk, hEq⟩
    exact ⟨k, hk, hEq.symm⟩
  · rintro ⟨k, hk, rfl⟩
    exact List.mem_map.2 ⟨k, hk, rfl⟩

theorem filter_key_ne_nil (posts : List Story) (k : GroupKey)
    (hk : k ∈ firstDedup (posts.map storyKey)) :
    posts.filter (fun p => storyKey p == k) ≠ [] := by
  have hk2 : k ∈ posts.map storyKey := (mem_firstDedup _ _).1 hk
  rcases List.mem_map.1 hk2 with ⟨p, hp, hEq⟩
  have hmem : p ∈ posts.filter (fun p => storyKey p == k) :=
    List.mem_filter.2 ⟨hp, beq_iff_eq.2 hEq⟩
  exact List.ne_nil_of_mem hmem

/-! ### The active-story query -/

theorem mem_insertByCreatedAtDesc (r x : StoryRow) : ∀ l : List StoryRow,
    x ∈ insertByCreatedAtDesc r l ↔ x = r ∨ x ∈ l
  | [] => by simp [insertByCreatedAtDesc]
  | y :: l => by
    unfold insertByCreatedAtDesc
    by_cases hc : y.createdAt < r.createdAt
    · rw [if_pos hc]
      simp
    · rw [if_neg hc]
      rw [List.mem_cons, List.mem_cons, mem_insertByCreatedAtDesc r x l]
      tauto

theorem mem_foldr_insert (x : StoryRow) : ∀ l : List StoryRow,
    x ∈ l.foldr insertByCreatedAtDesc [] ↔ x ∈ l
  | [] => Iff.rfl
  | y :: l => by
    rw [List.foldr_cons, mem_insertByCreatedAtDesc, mem_foldr_insert x l, List.mem_cons]

theorem rowActive_none_iff (now : ℤ) (r : StoryRow) :
    rowActive now none r = true ↔ now < r.expiresAt ∧ r.isHidden = false := by
  unfold rowActive
  rw [Bool.and_assoc, Bool.and_eq_true, Bool.and_eq_true]
  simp [decide_eq_true_eq]

/-! ### Claim C1 -/

/-- C1 (counterexample): six colocated stories with zero likes form one spot
whose vibe score is `6 * 20 + 0 * 2 = 120`.  This exceeds the claimed upper
bound 100, and differs from `min(100, n * W_story + likes * W_like)` for both
candidate weights (`min(100, 120) = 100` and `min(100, 60) = 60`): the code
applies no clamp. -/
theorem C1_counterexample :
    (displayedSpots [] "World" sixStories).map Spot.vibeScore = [120]
    ∧ ¬ ((120 : ℤ) ≤ 100) ∧ (120 : ℤ) ≠ 100 ∧ (120 : ℤ) ≠ 60 := by
  refine ⟨by decide, by decide, by decide, by decide⟩

/-- C1 (amended): for inputs with non-negative like counts, every computed
spot has `vibeScore = members.length * 20 + sum(likes) * 2`, with no upper
clamp; the lower bound `0 ≤ vibeScore` does hold. -/
theorem C1_amended_score (posts : List Story) (neighborhoods : List Neighborhood)
    (cityName : String) (h : ∀ p ∈ posts, 0 ≤ p.likes) :
    ∀ sp ∈ displayedSpots neighborhoods cityName posts,
      sp.vibeScore = (sp.activeStories.length : ℤ) * 20 + totalLikes sp.activeStories * 2
      ∧ 0 ≤ sp.vibeScore := by
  intro sp hsp
  rcases (displayedSpots_mem_iff neighborhoods cityName posts sp).1 hsp with ⟨k, hk, rfl⟩
  rw [mkSpot_vibeScore, mkSpot_activeStories]
  refine ⟨rfl, ?_⟩
  unfold vibeScoreOf
  dsimp only
  have h1 : 0 ≤ totalLikes (posts.filter (fun p => storyKey p == k)) :=
    totalLikes_nonneg _ (fun p hp => h p (List.mem_filter.1 hp).1)
  have h2 : (0 : ℤ) ≤ ((posts.filter (fun p => storyKey p == k)).length : ℤ) :=
    Int.natCast_nonneg _
  omega

/-- C1 (witness): the amended statement applied to one story with zero
likes. -/
theorem C1_amended_witness :
    (∀ p ∈ [wStory], 0 ≤ p.likes)
    ∧ ∀ sp ∈ displayedSpots [] "World" [wStory],
        sp.vibeScore = (sp.activeStories.length : ℤ) * 20 + totalLikes sp.activeStories * 2
        ∧ 0 ≤ sp.vibeScore :=
  ⟨by decide, C1_amended_score [wStory] [] "World" (by decide)⟩

/-! ### Claim C2 -/

/-- C2 (counterexample): stories `cA` and `cB` are 0.0002 degrees apart —
below the 0.0015-degree threshold, so the anchor-threshold clustering the
claim describes yields one cluster — yet the code yields two spots, because
their latitudes round to different 3-decimal keys (0.000 vs 0.001). -/
theorem C2_counterexample :
    ((cA.latitude - cB.latitude) * (cA.latitude - cB.latitude)
        + (cA.longitude - cB.longitude) * (cA.longitude - cB.longitude)
      < specThreshold * specThreshold)
    ∧ (specThresholdClusters [cA, cB]).length = 1
    ∧ (displayedSpots [] "World" [cA, cB]).length = 2 := by
  refine ⟨by decide, by decide, by decide⟩

/-- C2 (amended): the clustering pass groups posts by exact equality of the
key (location name, latitude and longitude each rounded to 3 decimals):
in input order, a post joins the group holding its key if present, else a new
group is appended; one spot per distinct key, in first-occurrence order, whose
members are exactly the input posts with that key, in input order.  No
distance comparison is involved. -/
theorem C2_amended_key_grouping (posts : List Story) (neighborhoods : List Neighborhood)
    (cityName : String) :
    (displayedSpots neighborhoods cityName posts).map Spot.activeStories
      = (firstDedup (posts.map storyKey)).map
          (fun k => posts.filter (fun p => storyKey p == k)) :=
  displayedSpots_members neighborhoods cityName posts

/-! ### Claim C3 -/

/-- C3: the computed spots partition the input: the concatenation of all
member lists is a permutation of the input list, no spot has an empty member
list, and every input post belongs to exactly one spot. -/
theorem C3_partition (posts : List Story) (neighborhoods : List Neighborhood)
    (cityName : String) :
    (((displayedSpots neighborhoods cityName posts).map Spot.activeStories).flatten).Perm posts
    ∧ (∀ sp ∈ displayedSpots neighborhoods cityName posts, sp.activeStories ≠ [])
    ∧ (∀ p ∈ posts,
        (displayedSpots neighborhoods cityName posts).countP
          (fun sp => decide (p ∈ sp.activeStories)) = 1) := by
  have hcov : ∀ p ∈ posts, storyKey p ∈ firstDedup (posts.map storyKey) :=
    fun p hp => (mem_firstDedup _ _).2 (List.mem_map_of_mem _ hp)
  refine ⟨?_, ?_, ?_⟩
  · rw [displayedSpots_members]
    exact perm_flatten_filter _ posts (firstDedup_nodup _) hcov
  · intro sp hsp
    rcases (displayedSpots_mem_iff neighborhoods cityName posts sp).1 hsp with ⟨k, hk, rfl⟩
    rw [mkSpot_activeStories]
    exact filter_key_ne_nil posts k hk
  · intro p hp
    rw [displayedSpots, buildGroups_eq, groupsOf, List.map_map, List.countP_map]
    have hcong : List.countP
        ((fun sp => decide (p ∈ sp.activeStories)) ∘ mkSpot neighborhoods cityName
          ∘ (fun k => { key := k, stories := posts.filter (fun p => storyKey p == k) }))
        (firstDedup (posts.map storyKey))
        = List.countP (fun k => k == storyKey p) (firstDedup (posts.map storyKey)) := by
      refine List.countP_congr (fun k _ => ?_)
      show decide (p ∈ posts.filter (fun q => storyKey q == k)) = true ↔ (k == storyKey p) = true
      rw [decide_eq_true_eq, List.mem_filter, beq_iff_eq, beq_iff_eq]
      constructor
      · rintro ⟨_, hx⟩; exact hx.symm
      · intro hx; exact ⟨hp, hx.symm⟩
    rw [hcong, ← List.count_eq_countP]
    exact List.count_eq_one_of_mem (firstDedup_nodup _) (hcov p hp)

/-! ### Claim C4 -/

/-- C4: the active-story query returns exactly the rows with
`expires_at > now` and `is_hidden = false`; a row expiring exactly at `now`
is excluded (strict inequality), and the empty input yields the empty
output. -/
theorem C4_expiry_filter (rows : List StoryRow) (now : ℤ) :
    (∀ r, r ∈ getActiveStories rows now none
        ↔ r ∈ rows ∧ now < r.expiresAt ∧ r.isHidden = false)
    ∧ (∀ r ∈ rows, r.expiresAt = now → r ∉ getActiveStories rows now none)
    ∧ getActiveStories [] now none = [] := by
  have hmem : ∀ r, r ∈ getActiveStories rows now none
      ↔ r ∈ rows ∧ now < r.expiresAt ∧ r.isHidden = false := by
    intro r
    rw [getActiveStories, mem_foldr_insert, List.mem_filter, rowActive_none_iff]
  refine ⟨hmem, ?_, rfl⟩
  intro r _ hEq hmem2
  rcases (hmem r).1 hmem2 with ⟨_, hlt, _⟩
  rw [hEq] at hlt
  exact lt_irrefl now hlt

/-! ### Claim C7 -/

/-- C7: the activity classification returns "HOT" exactly on scores at least
40, "ACTIVE" exactly on scores strictly between 10 and 40, and "CALM" exactly
on scores at most 10; a spot with one member with zero likes scores exactly
20 and is classified "ACTIVE". -/
theorem C7_classification (score : ℤ) (p : Story) (hp : p.likes = 0) :
    (getSpotActivityLevel score = "HOT" ↔ 40 ≤ score)
    ∧ (getSpotActivityLevel score = "ACTIVE" ↔ 10 < score ∧ score < 40)
    ∧ (getSpotActivityLevel score = "CALM" ↔ score ≤ 10)
    ∧ vibeScoreOf [p] = 20
    ∧ getSpotActivityLevel (vibeScoreOf [p]) = "ACTIVE" := by
  have h20 : vibeScoreOf [p] = 20 := by
    unfold vibeScoreOf
    rw [totalLikes_cons, hp]
    norm_num [totalLikes]
  refine ⟨?_, ?_, ?_, h20, by rw [h20]; decide⟩
  · unfold getSpotActivityLevel
    by_cases h40 : score ≥ 40
    · rw [if_pos h40]
      simp [h40]
    · rw [if_neg h40]
      by_cases h10 : score > 10
      · rw [if_pos h10]
        constructor
        · intro h; exact absurd h (by decide)
        · intro h; omega
      · rw [if_neg h10]
        constructor
        · intro h; exact absurd h (by decide)
        · intro h; omega
  · unfold getSpotActivityLevel
    by_cases h40 : score ≥ 40
    · rw [if_pos h40]
      constructor
      · intro h; exact absurd h (by decide)
      · intro h; omega
    · rw [if_neg h40]
      by_cases h10 : score > 10
      · rw [if_pos h10]
        constructor
        · intro _; exact ⟨h10, by omega⟩
        · intro _; rfl
      · rw [if_neg h10]
        constructor
        · intro h; exact absurd h (by decide)
        · intro h; omega
  · unfold getSpotActivityLevel
    by_cases h40 : score ≥ 40
    · rw [if_pos h40]
      constructor
      · intro h; exact absurd h (by decide)
      · intro h; omega
    · rw [if_neg h40]
      by_cases h10 : score > 10
      · rw [if_pos h10]
        constructor
        · intro h; exact absurd h (by decide)
        · intro h; omega
      · rw [if_neg h10]
        constructor
        · intro _; omega
        · intro _; rfl

/-- C7 (witness): the classification applied to the concrete score 20 and a
concrete story with zero likes. -/
theorem C7_witness :
    wStory.likes = 0 ∧ getSpotActivityLevel (vibeScoreOf [wStory]) = "ACTIVE" :=
  ⟨rfl, (C7_classification 20 wStory rfl).2.2.2.2⟩

/-! ### Claim C5 -/

/-- C5 (counterexample): with the proximity mode selected (labelled "Near Me"
in the specification; the selector list itself lives in the absent
`constants.ts`), the view projection tag-filters regardless of any user
location: a single story tagged only "food" yields an empty result, not the
input unchanged. -/
theorem C5_counterexample :
    filteredStories [tagStory] "Near Me" = [] ∧ ([tagStory] : List Story) ≠ [] := by
  refine ⟨by decide, by decide⟩

/-- C5 (amended): the view projection never consults a user location: the
"All" mode returns the input unchanged, and every other mode returns the
subset of stories one of whose tags contains the mode string
case-insensitively — a sublist of the input that can be empty. -/
theorem C5_amended_projection (stories : List Story) (f : String) :
    filteredStories stories "All" = stories
    ∧ (filteredStories stories f).Sublist stories
    ∧ (∀ s, s ∈ filteredStories stories f
        ↔ s ∈ stories ∧ (f = "All" ∨
            s.vibeTags.any (fun tag => jsIncludes (jsToLower tag) (jsToLower f)) = true)) := by
  refine ⟨by rw [filteredStories, if_pos rfl], ?_, ?_⟩
  · unfold filteredStories
    by_cases hf : f = "All"
    · rw [if_pos hf]
    · rw [if_neg hf]
      exact List.filter_sublist _
  · intro s
    unfold filteredStories
    by_cases hf : f = "All"
    · rw [if_pos hf]
      simp [hf]
    · rw [if_neg hf, List.mem_filter]
      simp [hf]

/-! ### Claim C6 -/

/-- C6 (counterexample): two colocated stories arrive with the lower-liked
one first; the computed spot keeps them in input order `[sLow, sHigh]`, which
violates the claimed like-count-descending member order. -/
theorem C6_counterexample :
    (displayedSpots [] "World" [sLow, sHigh]).map Spot.activeStories = [[sLow, sHigh]]
    ∧ sLow.likes < sHigh.likes
    ∧ ¬ claimedMemberOrder [sLow, sHigh] := by
  refine ⟨by decide, by decide, ?_⟩
  intro h
  rcases List.pairwise_cons.1 h with ⟨hrel, _⟩
  rcases hrel sHigh (List.mem_cons_self ..) with hlt | ⟨hEq, _⟩
  · exact absurd hlt (by decide)
  · exact absurd hEq (by decide)

/-- C6 (amended): each computed spot lists its members in input order (its
member list is the subsequence of the input carrying the spot key); no
re-sorting by like count or creation time is applied. -/
theorem C6_amended_member_order (posts : List Story) (neighborhoods : List Neighborhood)
    (cityName : String) :
    ∀ sp ∈ displayedSpots neighborhoods cityName posts,
      sp.activeStories.Sublist posts := by
  intro sp hsp
  rcases (displayedSpots_mem_iff neighborhoods cityName posts sp).1 hsp with ⟨k, hk, rfl⟩
  rw [mkSpot_activeStories]
  exact List.filter_sublist _

/-! ### Claim C8 -/

/-- C8 (counterexample): two stories with identical coordinates but distinct
location names fall into two different groups (the key includes the location
name), so the degenerate all-colocated input yields two spots, not one. -/
theorem C8_counterexample :
    cE.latitude = cF.latitude ∧ cE.longitude = cF.longitude
    ∧ (displayedSpots [] "World" [cE, cF]).length = 2 := by
  refine ⟨rfl, rfl, by decide⟩

/-- C8 (amended): the clustering pass is a total function; a non-empty input
in which all posts share one coordinate pair and one location name yields
exactly one spot, and the empty input yields zero spots. -/
theorem C8_amended_degenerate (posts : List Story) (neighborhoods : List Neighborhood)
    (cityName : String) (lat lon : ℚ) (name : String) (hne : posts ≠ [])
    (hsame : ∀ p ∈ posts, p.latitude = lat ∧ p.longitude = lon ∧ p.locationName = name) :
    (displayedSpots neighborhoods cityName posts).length = 1
    ∧ displayedSpots neighborhoods cityName [] = [] := by
  refine ⟨?_, rfl⟩
  rw [displayedSpots, buildGroups_eq, groupsOf, List.map_map, List.length_map]
  have hconst : ∀ x ∈ posts.map storyKey,
      x = { locationName := name, latKey := (jsRound (lat * 1000) : ℚ) / 1000,
            lonKey := (jsRound (lon * 1000) : ℚ) / 1000 } := by
    intro x hx
    rcases List.mem_map.1 hx with ⟨p, hp, rfl⟩
    rcases hsame p hp with ⟨hlat, hlon, hname⟩
    unfold storyKey latKey lonKey
    rw [hlat, hlon, hname]
  have hne2 : posts.map storyKey ≠ [] := by
    intro hnil
    exact hne (List.map_eq_nil_iff.1 hnil)
  rw [firstDedup_constant hne2 hconst]
  rfl

/-- C8 (witness): the amended statement applied to a one-story input. -/
theorem C8_amended_witness :
    ([cE] : List Story) ≠ [] ∧ (displayedSpots [] "World" [cE]).length = 1 :=
  ⟨by decide, (C8_amended_degenerate [cE] [] "World" 0 0 "a" (by decide) (by decide)).1⟩

/-! ### Claim C9 -/

/-- C9: the scoring function is monotone: appending one more member with a
non-negative like count never decreases a spot score, and adding one like to
any member never decreases it. -/
theorem C9_score_monotonicity (ms ms₁ ms₂ : List Story) (p s : Story) (hp : 0 ≤ p.likes) :
    vibeScoreOf ms ≤ vibeScoreOf (ms ++ [p])
    ∧ vibeScoreOf (ms₁ ++ s :: ms₂)
        ≤ vibeScoreOf (ms₁ ++ { s with likes := s.likes + 1 } :: ms₂) := by
  constructor
  · unfold vibeScoreOf
    rw [totalLikes_append, List.length_append, totalLikes_cons]
    have htot : totalLikes [] = 0 := rfl
    rw [htot]
    push_cast
    linarith
  · unfold vibeScoreOf
    rw [totalLikes_append, totalLikes_append, totalLikes_cons, totalLikes_cons,
      List.length_append, List.length_append, List.length_cons, List.length_cons]
    dsimp only
    linarith

/-- C9 (witness): the monotonicity statement applied to concrete inputs. -/
theorem C9_witness :
    (0 : ℤ) ≤ wStory.likes ∧ vibeScoreOf [] ≤ vibeScoreOf ([] ++ [wStory]) :=
  ⟨by decide, (C9_score_monotonicity [] [] [] wStory wStory (by decide)).1⟩

/-! ### Claim C10 -/

/-- C10: with non-negative like counts, every computed spot scores at least
20 (one member alone contributes 20), so the "CALM" branch of the activity
classification is unreachable for computed spots. -/
theorem C10_calm_unreachable (posts : List Story) (neighborhoods : List Neighborhood)
    (cityName : String) (h : ∀ p ∈ posts, 0 ≤ p.likes) :
    ∀ sp ∈ displayedSpots neighborhoods cityName posts,
      20 ≤ sp.vibeScore ∧ getSpotActivityLevel sp.vibeScore ≠ "CALM" := by
  intro sp hsp
  rcases (displayedSpots_mem_iff neighborhoods cityName posts sp).1 hsp with ⟨k, hk, rfl⟩
  rw [mkSpot_vibeScore]
  have h20 : 20 ≤ vibeScoreOf (posts.filter (fun p => storyKey p == k)) := by
    unfold vibeScoreOf
    have h1 : 0 ≤ totalLikes (posts.filter (fun p => storyKey p == k)) :=
      totalLikes_nonneg _ (fun p hp => h p (List.mem_filter.1 hp).1)
    have h2 : 1 ≤ ((posts.filter (fun p => storyKey p == k)).length : ℤ) := by
      have hpos : 0 < (posts.filter (fun p => storyKey p == k)).length :=
        List.length_pos.2 (filter_key_ne_nil posts k hk)
      omega
    omega
  refine ⟨h20, ?_⟩
  unfold getSpotActivityLevel
  by_cases h40 : vibeScoreOf (posts.filter (fun p => storyKey p == k)) ≥ 40
  · rw [if_pos h40]
    decide
  · rw [if_neg h40, if_pos (by omega : vibeScoreOf (posts.filter (fun p => storyKey p == k)) > 10)]
    decide

/-- C10 (witness): the statement applied to one concrete story with zero
likes. -/
theorem C10_witness :
    (∀ p ∈ [wStory], 0 ≤ p.likes)
    ∧ ∀ sp ∈ displayedSpots [] "World" [wStory],
        20 ≤ sp.vibeScore ∧ getSpotActivityLevel sp.vibeScore ≠ "CALM" :=
  ⟨by decide, C10_calm_unreachable [wStory] [] "World" (by decide)⟩

/-! ### Closed instances of the universally quantified claim theorems -/

/-- C3 (witness): the partition statement evaluated on a one-story input. -/
theorem C3_witness :
    (((displayedSpots [] "World" [cE]).map Spot.activeStories).flatten).Perm [cE] :=
  (C3_partition [cE] [] "World").1

/-- C4 (witness): the membership characterization at a concrete active row. -/
theorem C4_witness :
    wRow ∈ getActiveStories [wRow] 0 none
      ↔ wRow ∈ [wRow] ∧ (0 : ℤ) < wRow.expiresAt ∧ wRow.isHidden = false :=
  (C4_expiry_filter [wRow] 0).1 wRow

/-- C5 (witness): the amended projection statement at a concrete input. -/
theorem C5_amended_witness :
    filteredStories [tagStory] "All" = [tagStory] :=
  (C5_amended_projection [tagStory] "food").1

/-- C6 (witness): the amended member-order statement at the one spot computed
from a one-story input. -/
theorem C6_amended_witness :
    (mkSpot [] "World" { key := storyKey cE, stories := [cE] }).activeStories.Sublist [cE] :=
  C6_amended_member_order [cE] [] "World" _ (List.mem_cons_self _ _)

end

end SpotLive
